import Mathlib

/-!
# Verification of the office-visits tracker core

Shallow embedding of the repository's core logic:

* `calendar_data.py` — working-day calendar for 2026 (holiday table, weekday
  rules, week/month working-day enumeration, ISO week numbers);
* `database.py`     — the SQLite-backed attendance store, modelled as a list
  of rows with the `UNIQUE(user_id, visit_date)` upsert semantics of the SQL
  statements;
* `report_generator.py` — the report pipeline, modelled as structured data
  (week buckets, day statuses, counters, compliance flags) rather than the
  rendered strings.

Dates are embedded as proleptic-Gregorian day numbers (`Nat`), exactly
Python's `date.toordinal()` (ordinal 1 = 0001-01-01, a Monday).  Python's
`date.weekday()` is then `(n + 6) % 7` with Monday = 0.  The database stores
dates as `YYYY-MM-DD` strings and compares them with SQL `BETWEEN`; for the
zero-padded ISO format that lexicographic order coincides with chronological
order, so string comparison is embedded as `Nat` order on ordinals.
-/

namespace OfficeVisits

/-! ## Date arithmetic (embedding of Python `datetime.date`) -/

/-- Cumulative day counts before each month in a non-leap year
(`daysBeforeMonth 1 = 0`, `daysBeforeMonth 2 = 31`, ...). -/
def daysBeforeMonth (m : Nat) : Nat :=
  [0, 31, 59, 90, 120, 151, 181, 212, 243, 273, 304, 334].getD (m - 1) 0

/-- Gregorian leap-year rule. -/
def isLeap (y : Nat) : Bool :=
  (y % 4 == 0 && y % 100 != 0) || y % 400 == 0

/-- Python's `date(y, m, d).toordinal()`: day number of a civil date, with
ordinal 1 = 0001-01-01. -/
def toOrdinal (y m d : Nat) : Nat :=
  365 * (y - 1) + (y - 1) / 4 - (y - 1) / 100 + (y - 1) / 400 +
    daysBeforeMonth m + (if 2 < m && isLeap y then 1 else 0) + d

/-- Python's `date.weekday()` on a day number: Monday = 0 ... Sunday = 6. -/
def weekday (n : Nat) : Nat := (n + 6) % 7

/-- Inverse of `toOrdinal` (civil date from day number), the standard
era/year-of-era/day-of-year computation on the March-based calendar. -/
def fromOrdinal (n : Nat) : Nat × Nat × Nat :=
  let z := n + 305
  let era := z / 146097
  let doe := z % 146097
  let yoe := (doe - doe / 1460 + doe / 36524 - doe / 146096) / 365
  let doy := doe - (365 * yoe + yoe / 4 - yoe / 100)
  let mp := (5 * doy + 2) / 153
  let d := doy - (153 * mp + 2) / 5 + 1
  let m := if mp < 10 then mp + 3 else mp - 9
  let y := era * 400 + yoe + (if m ≤ 2 then 1 else 0)
  (y, m, d)

/-! ## `calendar_data.py` -/

/-- Embedding of `HOLIDAYS_2026`: the official non-working holidays of 2026, as civil
dates (the Python source keeps them as `YYYY-MM-DD` strings). -/
def HOLIDAYS_2026 : List (Nat × Nat × Nat) :=
  [(2026, 1, 1), (2026, 1, 2), (2026, 1, 3), (2026, 1, 4),
   (2026, 1, 5), (2026, 1, 6), (2026, 1, 7), (2026, 1, 8),
   (2026, 1, 9),
   (2026, 2, 23),
   (2026, 3, 8),
   (2026, 5, 1),
   (2026, 5, 9),
   (2026, 6, 12),
   (2026, 11, 4)]

/-- Embedding of `TRANSFERRED_HOLIDAYS_2026`: holidays transferred off a weekend. -/
def TRANSFERRED_HOLIDAYS_2026 : List (Nat × Nat × Nat) :=
  [(2026, 5, 11)]

/-- Embedding of `get_holidays()`: the set of all holiday dates, as day numbers.  (The
Python function returns a `set` of `date` objects; membership of a `date` in
that set is membership of its ordinal here.) -/
def get_holidays : List Nat :=
  (HOLIDAYS_2026 ++ TRANSFERRED_HOLIDAYS_2026).map
    (fun t => toOrdinal t.1 t.2.1 t.2.2)

/-- Embedding of `is_working_day(date)`: false on a holiday, false on Saturday
(weekday 5) or Sunday (weekday 6), true otherwise. -/
def is_working_day (n : Nat) : Bool :=
  if get_holidays.contains n then false
  else if weekday n == 5 || weekday n == 6 then false
  else true

/-- Embedding of `get_work_week_dates(date)`: the Monday of the week is
`date - timedelta(days=date.weekday())`; the working days are the 7-day span
from that Monday filtered through `is_working_day`, in order. -/
def get_work_week_dates (n : Nat) : List Nat :=
  let monday := n - weekday n
  ((List.range 7).map (fun i => monday + i)).filter is_working_day

/-- Embedding of `get_week_number(date)`: `date.isocalendar()[1]`, the ISO-8601 week
number — the week (Monday-based) of the date's nearest Thursday, numbered
from the Thursday's year's January 1st. -/
def get_week_number (n : Nat) : Nat :=
  let thu := n + 3 - weekday n
  let y := (fromOrdinal thu).1
  (thu - toOrdinal y 1 1) / 7 + 1

/-- Day number of the first day of month `(y, m)`. -/
def first_day (y m : Nat) : Nat := toOrdinal y m 1

/-- Day number of the first day of the month after `(y, m)`
(`datetime(year + 1, 1, 1)` when `month == 12`, else
`datetime(year, month + 1, 1)`, as in the source). -/
def next_month_first (y m : Nat) : Nat :=
  if m == 12 then toOrdinal (y + 1) 1 1 else toOrdinal y (m + 1) 1

/-- Every calendar day of month `(y, m)` from the 1st to the last day
inclusive, in order — the iteration space of the `while current <= last_day`
loop in `get_month_working_days`. -/
def month_days (y m : Nat) : List Nat :=
  (List.range (next_month_first y m - first_day y m)).map
    (fun i => first_day y m + i)

/-- Embedding of `get_month_working_days(year, month)`: every day of the month filtered
through `is_working_day`, chronological order preserved. -/
def get_month_working_days (y m : Nat) : List Nat :=
  (month_days y m).filter is_working_day

/-! ## `database.py`

The `office_visits` table is modelled as a list of rows.  The SQL statements
become list operations: `INSERT ... ON CONFLICT(user_id, visit_date) DO
UPDATE` is an in-place update when a row with the key exists and an append
otherwise; `SELECT ... WHERE` is a filter; `ORDER BY visit_date` is a stable
sort on the date; `DELETE ... WHERE` removes the matching rows.  The SQL
`UNIQUE(user_id, visit_date)` constraint is the invariant `KeyUnique`. -/

/-- A row of the `office_visits` table (the autoincrement `id` and the
timestamp carry no logic and are not modelled). -/
structure VisitRow where
  user_id : Nat
  visit_date : Nat
  was_in_office : Bool
  note : Option String
deriving DecidableEq, Repr

/-- The `office_visits` table. -/
abbrev Store := List VisitRow

/-- Embedding of `WHERE user_id = ? AND visit_date = ?`. -/
def keyMatch (u d : Nat) (r : VisitRow) : Bool :=
  r.user_id == u && r.visit_date == d

/-- The `UNIQUE(user_id, visit_date)` constraint: at most one row per key. -/
def KeyUnique (s : Store) : Prop :=
  ∀ u d, s.countP (keyMatch u d) ≤ 1

/-- Embedding of `mark_visit`: `INSERT ... ON CONFLICT(user_id, visit_date) DO UPDATE SET
was_in_office = excluded.was_in_office, note = excluded.note`. -/
def mark_visit (s : Store) (u d : Nat) (b : Bool) (note : Option String) :
    Store :=
  if s.any (keyMatch u d) then
    s.map (fun r =>
      if keyMatch u d r then { r with was_in_office := b, note := note }
      else r)
  else
    s ++ [⟨u, d, b, note⟩]

/-- Embedding of `get_visit`: `SELECT * ... WHERE user_id = ? AND visit_date = ?` with
`fetchone()` (first matching row, `None` when there is none). -/
def get_visit (s : Store) (u d : Nat) : Option VisitRow :=
  (s.filter (keyMatch u d)).head?

/-- Insertion step of the stable sort embedding `ORDER BY visit_date`. -/
def insertByDate (r : VisitRow) : Store → Store
  | [] => [r]
  | x :: xs =>
    if r.visit_date ≤ x.visit_date then r :: x :: xs
    else x :: insertByDate r xs

/-- Embedding of `ORDER BY visit_date`, as an insertion sort. -/
def sortByDate : Store → Store
  | [] => []
  | x :: xs => insertByDate x (sortByDate xs)

/-- Embedding of `get_visits_by_period`: `SELECT * ... WHERE user_id = ? AND visit_date
BETWEEN ? AND ? ORDER BY visit_date`.  SQL `BETWEEN` is inclusive on both
ends. -/
def get_visits_by_period (s : Store) (u start_d end_d : Nat) : Store :=
  sortByDate (s.filter (fun r =>
    r.user_id == u && (start_d ≤ r.visit_date && r.visit_date ≤ end_d)))

/-- Embedding of `get_month_visits`: queries the period from the 1st of the month to the
1st of the **next** month; since `BETWEEN` is inclusive, a row dated on the
1st of the next month is also returned. -/
def get_month_visits (s : Store) (u y m : Nat) : Store :=
  get_visits_by_period s u (first_day y m) (next_month_first y m)

/-- Embedding of `get_week_visits`: the period from the Monday of `date`'s week to the
Sunday (`monday + 6`), inclusive. -/
def get_week_visits (s : Store) (u date : Nat) : Store :=
  let monday := date - weekday date
  get_visits_by_period s u monday (monday + 6)

/-- Embedding of `delete_visit`: `DELETE FROM office_visits WHERE user_id = ? AND
visit_date = ?`. -/
def delete_visit (s : Store) (u d : Nat) : Store :=
  s.filter (fun r => !(keyMatch u d r))

/-! ## `report_generator.py`

The reports are modelled as structured values: the text rendering around
them (emoji glyphs, Russian month names, HTML tags) carries no logic.  A
day's glyph in the text report is one of 🏢 (in office), 🏠 (remote),
❓ (unmarked); the current-week view adds ⏳ (planned). -/

/-- The status glyph attached to a day in a report. -/
inductive DayStatus
  | in_office
  | remote
  | unmarked
  | planned
deriving DecidableEq, Repr, Inhabited

/-- The dict comprehension `{v['visit_date']: v for v in visits}`: maps a
date to the visit row for it. A later row with the same date overwrites an
earlier one, hence `getLast?`. -/
def visits_dict (visits : Store) (d : Nat) : Option VisitRow :=
  (visits.filter (fun v => v.visit_date == d)).getLast?

/-- Day classification of the month report: dict hit with
`was_in_office` → 🏢, dict hit without → 🏠, miss → ❓. -/
def classify_day (visits : Store) (d : Nat) : DayStatus :=
  match visits_dict visits d with
  | some v => if v.was_in_office then .in_office else .remote
  | none => .unmarked

/-- One `Неделя N` block of the text report. -/
structure WeekBlock where
  week_num : Nat
  day_statuses : List (Nat × DayStatus)
  office_count : Nat
  requirement_met : Bool
deriving DecidableEq, Repr, Inhabited

/-- Sorting the ISO week keys (`sorted(weeks.keys())`), insertion step. -/
def insertNat (x : Nat) : List Nat → List Nat
  | [] => [x]
  | y :: ys => if x ≤ y then x :: y :: ys else y :: insertNat x ys

/-- Sorting the ISO week keys (`sorted(weeks.keys())`). -/
def sortNat : List Nat → List Nat
  | [] => []
  | x :: xs => insertNat x (sortNat xs)

/-- The per-week loop body of `generate_text_report`: statuses of the
bucket's working days, `office_count` (days whose dict entry has
`was_in_office`), and `requirement_met = office_count >= 1`. -/
def make_week_block (visits : Store) (week_num : Nat) (days : List Nat) :
    WeekBlock :=
  { week_num := week_num
    day_statuses := days.map (fun d => (d, classify_day visits d))
    office_count :=
      days.countP (fun d => classify_day visits d == DayStatus.in_office)
    requirement_met :=
      decide (1 ≤ days.countP
        (fun d => classify_day visits d == DayStatus.in_office)) }

/-- The data content of the text report. `office_percent` is the exact value
`(total_office_days / total_work_days) * 100` that the source formats with
one decimal (`{office_percent:.1f}`); it is present only when the month has
at least one working day. -/
structure TextReport where
  total_work_days : Nat
  total_office_days : Nat
  total_home_days : Nat
  office_percent : Option ℚ
  weeks : List WeekBlock

/-- Embedding of `generate_text_report(user_id, year, month)`, as structured data:
working days of the month grouped by ISO week number (keys emitted in sorted
order), overall totals, and one `WeekBlock` per week. -/
def generate_text_report (s : Store) (u y m : Nat) : TextReport :=
  let work_days := get_month_working_days y m
  let visits := get_month_visits s u y m
  let twd := work_days.length
  let tod := visits.countP (fun v => v.was_in_office)
  let thd := visits.countP (fun v => !v.was_in_office)
  { total_work_days := twd
    total_office_days := tod
    total_home_days := thd
    office_percent :=
      if 0 < twd then some (((tod : ℚ) / (twd : ℚ)) * 100) else none
    weeks :=
      (sortNat ((work_days.map get_week_number).dedup)).map (fun w =>
        make_week_block visits w
          (work_days.filter (fun d => get_week_number d == w))) }

/-- The data content of `get_current_week_status`. -/
structure WeekStatus where
  week_num : Nat
  day_lines : List (Nat × DayStatus)
  office_count : Nat
  requirement_met : Bool
deriving DecidableEq, Repr

/-- Embedding of `get_current_week_status(user_id)` with "now" passed explicitly as the
day number `today`: lists the **working** days of the current week; a day
with a record shows 🏢/🏠; a day without one shows ⏳ (planned) when it is
strictly after today and ❓ (unmarked) otherwise.  `office_count` counts
`was_in_office` over **all** rows returned by `get_week_visits` (the whole
Monday–Sunday span), and the norm line reports `office_count >= 1`. -/
def get_current_week_status (s : Store) (u today : Nat) : WeekStatus :=
  let week_days := get_work_week_dates today
  let visits := get_week_visits s u today
  let office_count := visits.countP (fun v => v.was_in_office)
  { week_num := get_week_number today
    day_lines := week_days.map (fun day =>
      (day,
        match visits_dict visits day with
        | some v => if v.was_in_office then DayStatus.in_office
                    else DayStatus.remote
        | none => if today < day then DayStatus.planned
                  else DayStatus.unmarked))
    office_count := office_count
    requirement_met := decide (1 ≤ office_count) }

/-! ## Auxiliary definitions used by the claim statements -/

/-- The `DO UPDATE SET` part of the upsert: the row produced for a key
match. -/
def updateRow (b : Bool) (note : Option String) (r : VisitRow) : VisitRow :=
  { r with was_in_office := b, note := note }

/-- The holiday-or-transferred-holiday set of 2026 exactly as enumerated in
the claim: month/day pairs `{01-01..01-09, 02-23, 03-08, 05-01, 05-09,
05-11, 06-12, 11-04}`. -/
def claim_holidays_2026 : List (Nat × Nat) :=
  [(1, 1), (1, 2), (1, 3), (1, 4), (1, 5), (1, 6), (1, 7), (1, 8), (1, 9),
   (2, 23), (3, 8), (5, 1), (5, 9), (5, 11), (6, 12), (11, 4)]

/-! ## Claim C1 — month range query boundary -/

/-- C1: the claim states that `get_month_visits(user_id, year, month)`
returns only records dated inside the half-open interval
[1st of the month, 1st of the next month), a record dated on the 1st of the
following month not being returned.  The code computes the 1st of the next
month as the upper bound but passes it to SQL `BETWEEN`, which is inclusive,
so a record dated 2026-02-01 IS returned by the January 2026 query: the code
contradicts its own contract ("все посещения за месяц" — all visits of the
month) and the spec's half-open interval. -/
theorem get_month_visits_includes_next_month_first :
    get_month_visits [⟨1, toOrdinal 2026 2 1, true, none⟩] 1 2026 1 =
      [⟨1, toOrdinal 2026 2 1, true, none⟩] := by
  decide

/-! ## Claim C3 — `is_working_day` on the year 2026 -/

set_option synthInstance.maxSize 4096 in
/-- C3: for every civil date of 2026, `is_working_day` returns `false`
exactly when the date's weekday is Saturday (5) or Sunday (6) or its
month/day pair is in the claim's static holiday set; in particular
2026-01-01 is not a working day and 2026-01-12 (a Monday) is. -/
theorem is_working_day_2026_spec :
    (∀ m, m < 13 → ∀ d, d < 32 → 1 ≤ m → 1 ≤ d →
      d ≤ next_month_first 2026 m - first_day 2026 m →
      (is_working_day (toOrdinal 2026 m d) = false ↔
        (weekday (toOrdinal 2026 m d) = 5 ∨
         weekday (toOrdinal 2026 m d) = 6 ∨
         (m, d) ∈ claim_holidays_2026)))
    ∧ is_working_day (toOrdinal 2026 1 1) = false
    ∧ is_working_day (toOrdinal 2026 1 12) = true := by
  decide

/-- Witness for C3 at a concrete date: 2026-02-23, a listed holiday. -/
theorem is_working_day_2026_spec_witness :
    is_working_day (toOrdinal 2026 2 23) = false ↔
      (weekday (toOrdinal 2026 2 23) = 5 ∨
       weekday (toOrdinal 2026 2 23) = 6 ∨
       (2, 23) ∈ claim_holidays_2026) :=
  is_working_day_2026_spec.1 2 (by decide) 23 (by decide) (by decide)
    (by decide) (by decide)

/-! ## Store lemmas for the upsert (claim C2) -/

theorem keyMatch_updateRow (u d : Nat) (b : Bool) (note : Option String)
    (r : VisitRow) : keyMatch u d (updateRow b note r) = keyMatch u d r :=
  rfl

theorem keyMatch_eq_true {u d : Nat} {r : VisitRow}
    (h : keyMatch u d r = true) : r.user_id = u ∧ r.visit_date = d := by
  simpa [keyMatch] using h

theorem updateRow_of_keyMatch {u d : Nat} {b : Bool} {note : Option String}
    {r : VisitRow} (h : keyMatch u d r = true) :
    updateRow b note r = ⟨u, d, b, note⟩ := by
  obtain ⟨h1, h2⟩ := keyMatch_eq_true h
  cases r
  simp_all [updateRow]

/-- The update branch of the upsert does not change how many rows match the
key. -/
theorem countP_map_updateRow (s : Store) (u d : Nat) (b : Bool)
    (note : Option String) :
    (s.map (fun r => if keyMatch u d r then updateRow b note r else r)).countP
        (keyMatch u d) =
      s.countP (keyMatch u d) := by
  rw [List.countP_map]
  refine List.countP_congr (fun r _ => ?_)
  by_cases h : keyMatch u d r = true <;>
    simp [h, Function.comp, keyMatch_updateRow]

/-- After the upsert, the key matches exactly one row more than before when
the key was absent, and the same rows as before when it was present. -/
theorem countP_mark_visit (s : Store) (u d : Nat) (b : Bool)
    (note : Option String) :
    (mark_visit s u d b note).countP (keyMatch u d) =
      if s.any (keyMatch u d) then s.countP (keyMatch u d) else 1 := by
  unfold mark_visit
  by_cases h : s.any (keyMatch u d) = true
  · simpa [h, updateRow] using congrArg id (countP_map_updateRow s u d b note)
  · have h0 : s.countP (keyMatch u d) = 0 := by
      rw [List.countP_eq_zero]
      intro r hr hk
      exact h (List.any_eq_true.mpr ⟨r, hr, hk⟩)
    simp [h, List.countP_append, h0, List.countP_cons, keyMatch]

/-- Reading with `get_visit` right after `mark_visit` with the same key returns exactly
the row just written, for any prior store contents. -/
theorem get_visit_mark_visit (s : Store) (u d : Nat) (b : Bool)
    (note : Option String) :
    get_visit (mark_visit s u d b note) u d = some ⟨u, d, b, note⟩ := by
  unfold mark_visit
  by_cases h : s.any (keyMatch u d) = true
  · simp only [h, if_true]
    induction s with
    | nil => simp at h
    | cons r rs ih =>
      by_cases hk : keyMatch u d r = true
      · have hfr :
            (if keyMatch u d r = true then
                ({ r with was_in_office := b, note := note } : VisitRow)
              else r) = ⟨u, d, b, note⟩ := by
          rw [if_pos hk]
          exact updateRow_of_keyMatch hk
        have hknew : keyMatch u d (⟨u, d, b, note⟩ : VisitRow) = true := by
          simp [keyMatch]
        simp only [List.map_cons, hfr, get_visit, List.filter_cons, hknew,
          if_true, List.head?]
      · have h' : rs.any (keyMatch u d) = true := by
          rcases List.any_eq_true.mp h with ⟨x, hx, hkx⟩
          rcases List.mem_cons.mp hx with rfl | hx'
          · exact absurd hkx hk
          · exact List.any_eq_true.mpr ⟨x, hx', hkx⟩
        have hfr :
            (if keyMatch u d r = true then
                ({ r with was_in_office := b, note := note } : VisitRow)
              else r) = r := if_neg hk
        have := ih h'
        simp only [get_visit, List.map_cons, hfr, List.filter_cons, hk,
          if_false, Bool.false_eq_true] at this ⊢
        exact this
  · have hnil : s.filter (keyMatch u d) = [] := by
      rw [List.filter_eq_nil_iff]
      intro r hr hk
      exact h (List.any_eq_true.mpr ⟨r, hr, hk⟩)
    simp [h, get_visit, List.filter_append, hnil, keyMatch]

/-- C2: against any store satisfying the `UNIQUE(user_id, visit_date)`
invariant, two `mark_visit` calls with the same key leave exactly one row
for the key and `get_visit` returns the second write's `was_in_office` and
`note` (last write wins); a single `mark_visit` followed by `get_visit`
round-trips the written values. -/
theorem mark_visit_last_write_wins (s : Store) (u d : Nat) (b1 b2 : Bool)
    (n1 n2 : Option String) (hs : KeyUnique s) :
    (mark_visit (mark_visit s u d b1 n1) u d b2 n2).countP (keyMatch u d)
        = 1 ∧
    get_visit (mark_visit (mark_visit s u d b1 n1) u d b2 n2) u d
        = some ⟨u, d, b2, n2⟩ ∧
    get_visit (mark_visit s u d b1 n1) u d = some ⟨u, d, b1, n1⟩ := by
  have h1 : (mark_visit s u d b1 n1).countP (keyMatch u d) = 1 := by
    rw [countP_mark_visit]
    by_cases h : s.any (keyMatch u d) = true
    · rw [if_pos h]
      rcases List.any_eq_true.mp h with ⟨r, hr, hk⟩
      have hpos : 0 < s.countP (keyMatch u d) :=
        List.countP_pos_iff.mpr ⟨r, hr, hk⟩
      exact Nat.le_antisymm (hs u d) hpos
    · rw [if_neg h]
  have hany : (mark_visit s u d b1 n1).any (keyMatch u d) = true := by
    have hpos : 0 < (mark_visit s u d b1 n1).countP (keyMatch u d) := by
      rw [h1]; exact Nat.one_pos
    rcases List.countP_pos_iff.mp hpos with ⟨r, hr, hk⟩
    exact List.any_eq_true.mpr ⟨r, hr, hk⟩
  refine ⟨?_, get_visit_mark_visit _ u d b2 n2, get_visit_mark_visit s u d b1 n1⟩
  rw [countP_mark_visit, if_pos hany, h1]

/-- Witness for C2: from the empty store, mark 2026-01-12 as office then
re-mark it as remote with a note; one row remains and `get_visit` reads the
second write. -/
theorem mark_visit_last_write_wins_witness :
    (mark_visit (mark_visit [] 1 (toOrdinal 2026 1 12) true none) 1
          (toOrdinal 2026 1 12) false (some ("note"))).countP
        (keyMatch 1 (toOrdinal 2026 1 12)) = 1 ∧
    get_visit (mark_visit (mark_visit [] 1 (toOrdinal 2026 1 12) true none) 1
          (toOrdinal 2026 1 12) false (some ("note"))) 1 (toOrdinal 2026 1 12)
        = some ⟨1, toOrdinal 2026 1 12, false, some ("note")⟩ ∧
    get_visit (mark_visit [] 1 (toOrdinal 2026 1 12) true none) 1
          (toOrdinal 2026 1 12)
        = some ⟨1, toOrdinal 2026 1 12, true, none⟩ :=
  mark_visit_last_write_wins [] 1 (toOrdinal 2026 1 12) true false none
    (some ("note")) (fun u d => by simp)

/-! ## Claim C4 — the month partition property -/

/-- The days of the month are strictly increasing. -/
theorem month_days_pairwise_lt (y m : Nat) :
    List.Pairwise (· < ·) (month_days y m) :=
  (List.pairwise_lt_range _).map _
    (fun _ _ h => Nat.add_lt_add_left h _)

/-- The days of the month are pairwise distinct. -/
theorem month_days_nodup (y m : Nat) : (month_days y m).Nodup :=
  (List.nodup_range _).map (fun _ _ h => Nat.add_left_cancel h)

/-- C4: for every year and month, `get_month_working_days` and the
non-working days of the month partition the set of all calendar days of the
month — their union is every day from the 1st to the last inclusive, the two
parts are disjoint, and the working-day sequence has no duplicates and is in
chronological (strictly increasing) order. -/
theorem month_working_days_partition (y m : Nat) :
    (∀ x, x ∈ month_days y m ↔
      (x ∈ get_month_working_days y m ∨
       x ∈ (month_days y m).filter (fun d => !is_working_day d)))
    ∧ (∀ x, x ∈ get_month_working_days y m →
        x ∉ (month_days y m).filter (fun d => !is_working_day d))
    ∧ (get_month_working_days y m).Nodup
    ∧ List.Pairwise (· < ·) (get_month_working_days y m) := by
  refine ⟨fun x => ⟨fun hx => ?_, fun hx => ?_⟩, fun x hx hx' => ?_,
    (month_days_nodup y m).filter _,
    (month_days_pairwise_lt y m).filter _⟩
  · by_cases h : is_working_day x = true
    · exact Or.inl (List.mem_filter.mpr ⟨hx, h⟩)
    · exact Or.inr (List.mem_filter.mpr ⟨hx, by simp_all⟩)
  · rcases hx with h | h
    · exact (List.mem_filter.mp h).1
    · exact (List.mem_filter.mp h).1
  · have h1 := (List.mem_filter.mp hx).2
    have h2 := (List.mem_filter.mp hx').2
    simp_all [get_month_working_days]

/-- Witness for C4: the union direction instantiated at January 2026 and the
day 2026-01-12. -/
theorem month_working_days_partition_witness :
    toOrdinal 2026 1 12 ∈ month_days 2026 1 ↔
      (toOrdinal 2026 1 12 ∈ get_month_working_days 2026 1 ∨
       toOrdinal 2026 1 12 ∈
         (month_days 2026 1).filter (fun d => !is_working_day d)) :=
  (month_working_days_partition 2026 1).1 (toOrdinal 2026 1 12)

/-! ## Claim C5 — the working days of a week -/

/-- C5: `get_work_week_dates d` returns exactly the working-day subset of
the 7 days Monday..Sunday of `d`'s ISO week, where the Monday is `d` minus
its weekday index (so its weekday is 0 and `d` lies in the span), in
strictly increasing chronological order, with length at most 7. -/
theorem work_week_dates_spec (n : Nat) (h : weekday n ≤ n) :
    weekday (n - weekday n) = 0
    ∧ n - weekday n ≤ n ∧ n ≤ (n - weekday n) + 6
    ∧ (∀ x, x ∈ get_work_week_dates n ↔
        ((∃ i, i < 7 ∧ x = (n - weekday n) + i) ∧ is_working_day x = true))
    ∧ List.Pairwise (· < ·) (get_work_week_dates n)
    ∧ (get_work_week_dates n).length ≤ 7 := by
  refine ⟨?_, Nat.sub_le n _, ?_, fun x => ?_, ?_, ?_⟩
  · unfold weekday at h ⊢
    omega
  · have hw : weekday n < 7 := Nat.mod_lt _ (by omega)
    omega
  · constructor
    · intro hx
      have h1 := List.mem_filter.mp hx
      rcases List.mem_map.mp h1.1 with ⟨i, hi, rfl⟩
      exact ⟨⟨i, List.mem_range.mp hi, rfl⟩, h1.2⟩
    · rintro ⟨⟨i, hi, rfl⟩, hw⟩
      exact List.mem_filter.mpr
        ⟨List.mem_map.mpr ⟨i, List.mem_range.mpr hi, rfl⟩, hw⟩
  · have hp : List.Pairwise (· < ·)
        ((List.range 7).map (fun i => (n - weekday n) + i)) :=
      (List.pairwise_lt_range 7).map _
        (fun _ _ h => Nat.add_lt_add_left h _)
    exact hp.filter _
  · calc (get_work_week_dates n).length
        ≤ (((List.range 7).map (fun i => (n - weekday n) + i))).length :=
          List.length_filter_le _ _
      _ = 7 := by simp

/-- Witness for C5 at 2026-01-14 (a Wednesday): its week is
Monday 2026-01-12 .. Sunday 2026-01-18. -/
theorem work_week_dates_spec_witness :
    weekday (toOrdinal 2026 1 14 - weekday (toOrdinal 2026 1 14)) = 0
    ∧ toOrdinal 2026 1 14 - weekday (toOrdinal 2026 1 14)
        ≤ toOrdinal 2026 1 14
    ∧ toOrdinal 2026 1 14
        ≤ (toOrdinal 2026 1 14 - weekday (toOrdinal 2026 1 14)) + 6
    ∧ (get_work_week_dates (toOrdinal 2026 1 14)).length ≤ 7 :=
  have h := work_week_dates_spec (toOrdinal 2026 1 14) (by decide)
  ⟨h.1, h.2.1, h.2.2.1, h.2.2.2.2.2⟩

/-! ## Claim C6 — weekly compliance flag in the text report -/

/-- C6: in the text report, every ISO-week bucket is flagged compliant
(`requirement_met`, rendered ✅) exactly when at least one of its working
days is classified `IN_OFFICE`; a bucket with zero `IN_OFFICE` days gets
⚠️. -/
theorem text_report_week_compliance (s : Store) (u y m : Nat)
    (wb : WeekBlock) (hwb : wb ∈ (generate_text_report s u y m).weeks) :
    wb.requirement_met = true ↔
      1 ≤ wb.day_statuses.countP
        (fun p => p.2 == DayStatus.in_office) := by
  rcases List.mem_map.mp hwb with ⟨w, hw, rfl⟩
  simp [make_week_block, List.countP_map, Function.comp]

/-- Witness for C6: the spec scenario — user 1 marks 2026-01-12 in office
and 2026-01-13 remote; the first week bucket of the January 2026 report. -/
theorem text_report_week_compliance_witness :
    ((generate_text_report
          [⟨1, toOrdinal 2026 1 12, true, none⟩,
           ⟨1, toOrdinal 2026 1 13, false, none⟩] 1 2026 1).weeks.getD 0
        default).requirement_met = true ↔
      1 ≤ (((generate_text_report
          [⟨1, toOrdinal 2026 1 12, true, none⟩,
           ⟨1, toOrdinal 2026 1 13, false, none⟩] 1 2026 1).weeks.getD 0
        default).day_statuses.countP
        (fun p => p.2 == DayStatus.in_office)) :=
  text_report_week_compliance
    [⟨1, toOrdinal 2026 1 12, true, none⟩,
     ⟨1, toOrdinal 2026 1 13, false, none⟩] 1 2026 1
    ((generate_text_report
        [⟨1, toOrdinal 2026 1 12, true, none⟩,
         ⟨1, toOrdinal 2026 1 13, false, none⟩] 1 2026 1).weeks.getD 0
      default) (by decide)

/-! ## Claim C7 — PLANNED vs UNMARKED in the current-week view -/

/-- C7: in `get_current_week_status`, a working day of the current week with
no visit record is shown as `planned` (⏳) exactly when it lies strictly
after today, and as `unmarked` (❓) otherwise. -/
theorem current_week_planned_vs_unmarked (s : Store) (u today d : Nat)
    (st : DayStatus)
    (hmem : (d, st) ∈ (get_current_week_status s u today).day_lines)
    (hnone : visits_dict (get_week_visits s u today) d = none) :
    st = (if today < d then DayStatus.planned else DayStatus.unmarked)
    ∧ (st = DayStatus.planned ↔ today < d) := by
  have hmem' : (d, st) ∈ (get_work_week_dates today).map (fun day =>
      ((day : Nat),
        match visits_dict (get_week_visits s u today) day with
        | some v => if v.was_in_office then DayStatus.in_office
                    else DayStatus.remote
        | none => if today < day then DayStatus.planned
                  else DayStatus.unmarked)) := hmem
  rcases List.mem_map.mp hmem' with ⟨day, hday, heq⟩
  obtain ⟨rfl, rfl⟩ : day = d ∧
      (match visits_dict (get_week_visits s u today) day with
        | some v => if v.was_in_office then DayStatus.in_office
                    else DayStatus.remote
        | none => if today < day then DayStatus.planned
                  else DayStatus.unmarked) = st := by
    exact ⟨congrArg Prod.fst heq, congrArg Prod.snd heq⟩
  rw [hnone]
  by_cases h : today < day
  · simp [h]
  · simp [h]

/-- Witness for C7: run on Wednesday 2026-01-14 with no records, Thursday
2026-01-15 of the same week is shown as `planned`. -/
theorem current_week_planned_vs_unmarked_witness :
    DayStatus.planned = (if toOrdinal 2026 1 14 < toOrdinal 2026 1 15 then
        DayStatus.planned else DayStatus.unmarked)
    ∧ (DayStatus.planned = DayStatus.planned ↔
        toOrdinal 2026 1 14 < toOrdinal 2026 1 15) :=
  current_week_planned_vs_unmarked [] 1 (toOrdinal 2026 1 14)
    (toOrdinal 2026 1 15) DayStatus.planned (by decide) (by decide)

/-! ## Claim C8 — office percentage and the zero-working-days guard -/

/-- C8: the office-percentage line of the text report carries the value
in-office-days / working-days × 100 (formatted by the source with one
decimal) whenever the month has at least one working day, and is omitted —
with no division ever evaluated — when the month has zero working days. -/
theorem text_report_percent (s : Store) (u y m : Nat) :
    ((generate_text_report s u y m).total_work_days = 0 →
      (generate_text_report s u y m).office_percent = none)
    ∧ (0 < (generate_text_report s u y m).total_work_days →
      (generate_text_report s u y m).office_percent =
        some (((generate_text_report s u y m).total_office_days : ℚ) /
          ((generate_text_report s u y m).total_work_days : ℚ) * 100)) := by
  constructor
  · intro h
    simp only [generate_text_report] at h ⊢
    simp [h]
  · intro h
    simp only [generate_text_report] at h ⊢
    rw [if_pos h]

/-- Witness for C8: January 2026 (15 working days) with one office day. -/
theorem text_report_percent_witness :
    (generate_text_report [⟨1, toOrdinal 2026 1 12, true, none⟩] 1 2026
        1).office_percent =
      some (((generate_text_report [⟨1, toOrdinal 2026 1 12, true, none⟩] 1
            2026 1).total_office_days : ℚ) /
        ((generate_text_report [⟨1, toOrdinal 2026 1 12, true, none⟩] 1 2026
            1).total_work_days : ℚ) * 100) :=
  (text_report_percent [⟨1, toOrdinal 2026 1 12, true, none⟩] 1 2026 1).2
    (by decide)

/-! ## Claim C9 — deleting a visit -/

/-- C9: `delete_visit(u, d)` removes exactly the rows keyed `(u, d)`: no row
with the key survives, every other row survives, and when no row has the key
the call is a no-op leaving the store unchanged (and it never fails). -/
theorem delete_visit_spec (s : Store) (u d : Nat) :
    (∀ r ∈ delete_visit s u d, keyMatch u d r = false)
    ∧ (∀ r ∈ s, keyMatch u d r = false → r ∈ delete_visit s u d)
    ∧ ((∀ r ∈ s, keyMatch u d r = false) → delete_visit s u d = s) := by
  refine ⟨fun r hr => ?_, fun r hr h => ?_, fun h => ?_⟩
  · have h2 := (List.mem_filter.mp hr).2
    simpa using h2
  · exact List.mem_filter.mpr ⟨hr, by simp [h]⟩
  · refine List.filter_eq_self.mpr (fun r hr => ?_)
    simp [h r hr]

/-- Witness for C9: deleting the absent key `(2, d)` from a store holding
only a row for user 1 leaves the store unchanged. -/
theorem delete_visit_spec_witness :
    delete_visit [⟨1, toOrdinal 2026 1 12, true, none⟩] 2
        (toOrdinal 2026 1 12) =
      [⟨1, toOrdinal 2026 1 12, true, none⟩] :=
  (delete_visit_spec [⟨1, toOrdinal 2026 1 12, true, none⟩] 2
      (toOrdinal 2026 1 12)).2.2 (by decide)

/-! ## Claim C10 — week status counts records on non-working days -/

theorem insertByDate_perm (r : VisitRow) (l : Store) :
    (insertByDate r l).Perm (r :: l) := by
  induction l with
  | nil => simp [insertByDate]
  | cons x xs ih =>
    unfold insertByDate
    by_cases h : r.visit_date ≤ x.visit_date
    · rw [if_pos h]
    · rw [if_neg h]
      exact (ih.cons x).trans (List.Perm.swap r x xs)

theorem sortByDate_perm (l : Store) : (sortByDate l).Perm l := by
  induction l with
  | nil => simp [sortByDate]
  | cons x xs ih =>
    exact (insertByDate_perm x (sortByDate xs)).trans (ih.cons x)

/-- C10: in `get_current_week_status`, the displayed office-day count is
taken over **all** of the user's rows dated Monday through Sunday of the
current week — including rows on weekend or holiday dates, which are not
listed among the day lines (those show working days only) — and the
≥ 1-office-day verdict is exactly `office_count ≥ 1`.  Hence a single
`was_in_office` row on, say, a Saturday makes the norm report as met. -/
theorem current_week_office_count_spec (s : Store) (u today : Nat) :
    (get_current_week_status s u today).office_count =
      s.countP (fun r => r.was_in_office &&
        (r.user_id == u &&
          ((today - weekday today) ≤ r.visit_date &&
           r.visit_date ≤ (today - weekday today) + 6)))
    ∧ (∀ p ∈ (get_current_week_status s u today).day_lines,
        is_working_day p.1 = true)
    ∧ ((get_current_week_status s u today).requirement_met = true ↔
        1 ≤ (get_current_week_status s u today).office_count) := by
  refine ⟨?_, fun p hp => ?_, ?_⟩
  · show (get_week_visits s u today).countP (fun v => v.was_in_office) = _
    unfold get_week_visits get_visits_by_period
    rw [(sortByDate_perm _).countP_eq, List.countP_filter]
  · have hp' : p ∈ (get_work_week_dates today).map (fun day =>
        ((day : Nat),
          match visits_dict (get_week_visits s u today) day with
          | some v => if v.was_in_office then DayStatus.in_office
                      else DayStatus.remote
          | none => if today < day then DayStatus.planned
                    else DayStatus.unmarked)) := hp
    rcases List.mem_map.mp hp' with ⟨day, hday, rfl⟩
    exact (List.mem_filter.mp hday).2
  · show decide (1 ≤ (get_week_visits s u today).countP
        (fun v => v.was_in_office)) = true ↔ _
    simp [get_current_week_status]

/-- Witness for C10: a single in-office row on Saturday 2026-01-17, status
computed on Wednesday 2026-01-14; the count is taken over the whole week and
the norm is reported as met even though Saturday is not a working day. -/
theorem current_week_office_count_spec_witness :
    (get_current_week_status [⟨1, toOrdinal 2026 1 17, true, none⟩] 1
        (toOrdinal 2026 1 14)).office_count =
      List.countP (fun (r : VisitRow) => r.was_in_office &&
        (r.user_id == 1 &&
          ((toOrdinal 2026 1 14 - weekday (toOrdinal 2026 1 14))
              ≤ r.visit_date &&
           r.visit_date ≤
             (toOrdinal 2026 1 14 - weekday (toOrdinal 2026 1 14)) + 6)))
        [(⟨1, toOrdinal 2026 1 17, true, none⟩ : VisitRow)]
    ∧ (get_current_week_status [⟨1, toOrdinal 2026 1 17, true, none⟩] 1
        (toOrdinal 2026 1 14)).requirement_met = true :=
  have h := current_week_office_count_spec
    [⟨1, toOrdinal 2026 1 17, true, none⟩] 1 (toOrdinal 2026 1 14)
  ⟨h.1, h.2.2.mpr (by decide)⟩

end OfficeVisits
